import Mathlib

/-!
Verification of the SkyRide Reservation Lock Engine against its
natural-language specification.

The development shallowly embeds the engine's Python sources:

* `backend/redis_service.py`  — the Lock Store Adapter and hold operations,
  modelled as pure functions over an explicit `RedisState` (a list of keyed
  entries with absolute expiry instants, a current time, and an availability
  flag for the backing store; a raised-and-caught store exception in the
  Python source corresponds to the `up = false` branch of each operation);
* `backend/api/routes/holds.py` — the Hold Manager HTTP routes, as functions
  from request data and store state to an HTTP-level result and a new state;
* `backend/services/availability.py` — the Availability Overlay over a list
  of persisted `AvailabilitySlot` rows plus the live store state.

Each Redis command issued by the source (`SET key val NX EX ttl`, `DEL`,
`GET`, `TTL`, `EXISTS`) is one atomic step on `RedisState`; concurrency is
modelled as an arbitrary interleaving of such steps.
-/

namespace SkyRide

/-- Hold record stored under `hold:{listing_id}` by `create_hold_lock`
(`redis_service.py`): the JSON object
`{listing_id, created_at, expires_in_seconds}`. -/
structure HoldData where
  listing_id : String
  created_at : Nat
  expires_in_seconds : Nat
deriving DecidableEq, Repr

/-- Response payload of `POST /api/holds` (`HoldResponse` in `holds.py`).
`expires_at` is the epoch instant `created_at + expires_in_seconds`. -/
structure HoldResponseData where
  hold_id : String
  listing_id : String
  status : String
  expires_at : Nat
  remaining_seconds : Int
  created_from_idempotency : Bool
deriving DecidableEq, Repr

/-- A value held in the key-value store: either a hold record or a cached
idempotency response (the two JSON shapes the engine writes). -/
inductive StoreVal where
  | holdVal (h : HoldData)
  | idemVal (r : HoldResponseData)
deriving DecidableEq, Repr

/-- One store entry: key, value and optional absolute expiry instant
(`none` means no expiry was set). -/
structure Entry where
  key : String
  val : StoreVal
  expiresAt : Option Nat
deriving DecidableEq, Repr

/-- Whether an entry is visible at time `now` (Redis evicts a key once its
expiry instant is reached). -/
def Entry.liveAt (e : Entry) (now : Nat) : Bool :=
  match e.expiresAt with
  | none => true
  | some t => decide (now < t)

/-- State of the shared Redis store: its entries, the current time (epoch
seconds) and whether the backing store is reachable (`up = false` makes every
command raise, which each adapter method catches). -/
structure RedisState where
  entries : List Entry
  now : Nat
  up : Bool
deriving DecidableEq, Repr

/-- The live entry stored under key `k`, if any. -/
def RedisState.liveFind (s : RedisState) (k : String) : Option Entry :=
  s.entries.find? (fun e => e.key == k && e.liveAt s.now)

/-- Unconditional write of key `k` (Redis `SET`/`SETEX`): any previous entry
under `k` is replaced. -/
def RedisState.setEntry (s : RedisState) (k : String) (v : StoreVal)
    (expiresAt : Option Nat) : RedisState :=
  { s with entries := ⟨k, v, expiresAt⟩ :: s.entries.filter (fun e => e.key != k) }

/-- Time passing: Redis TTL countdown is server-side, so only `now` moves. -/
def RedisState.advance (s : RedisState) (d : Nat) : RedisState :=
  { s with now := s.now + d }

namespace RedisService

/-- `RedisService.get` (`redis_service.py` lines 43-49): returns the stored
value, or `none` both on a missing key and on a store error (the `except`
branch returns `None`). -/
def get (s : RedisState) (k : String) : Option StoreVal :=
  if !s.up then none
  else (s.liveFind k).map (fun e => e.val)

/-- `RedisService.set` (lines 51-60): `SETEX` when an expiry is given, plain
`SET` otherwise; a store error is caught and mapped to `false`. -/
def set (s : RedisState) (k : String) (v : StoreVal) (expire : Option Nat) :
    Bool × RedisState :=
  if !s.up then (false, s)
  else
    match expire with
    | some ex => (true, s.setEntry k v (some (s.now + ex)))
    | none => (true, s.setEntry k v none)

/-- `RedisService.delete` (lines 62-69): Redis `DEL`, returning whether a
live key was removed; a store error is caught and mapped to `false`. -/
def delete (s : RedisState) (k : String) : Bool × RedisState :=
  if !s.up then (false, s)
  else ((s.liveFind k).isSome,
    { s with entries := s.entries.filter (fun e => e.key != k) })

/-- `RedisService.exists` (lines 71-77); named `existsKey` because `exists`
is a Lean keyword. A store error is caught and mapped to `false`. -/
def existsKey (s : RedisState) (k : String) : Bool :=
  if !s.up then false
  else (s.liveFind k).isSome

/-- `RedisService.ttl` (lines 87-93): Redis `TTL` semantics (`-2` missing
key, `-1` no expiry) with a store error caught and mapped to `-1`. -/
def keyTtl (s : RedisState) (k : String) : Int :=
  if !s.up then -1
  else
    match s.liveFind k with
    | some e =>
      match e.expiresAt with
      | some t => (t : Int) - (s.now : Int)
      | none => -1
    | none => -2

/-- `RedisService.create_hold_lock` (lines 159-190): one atomic
`SET hold:{listing_id} data NX EX (minutes*60)`; returns `true` on creation,
`false` when the key already exists, and `false` when the store errors (the
`except` branch). -/
def create_hold_lock (s : RedisState) (listing_id : String)
    (hold_duration_minutes : Nat) : Bool × RedisState :=
  if !s.up then (false, s)
  else if (s.liveFind ("hold:" ++ listing_id)).isSome then (false, s)
  else
    (true,
      s.setEntry ("hold:" ++ listing_id)
        (StoreVal.holdVal ⟨listing_id, s.now, hold_duration_minutes * 60⟩)
        (some (s.now + hold_duration_minutes * 60)))

/-- `RedisService.release_hold_lock` (lines 192-203): `DEL hold:{listing_id}`
with the same error mapping as `delete`. -/
def release_hold_lock (s : RedisState) (listing_id : String) : Bool × RedisState :=
  delete s ("hold:" ++ listing_id)

/-- Snapshot returned by `get_hold_info`: the stored hold record enriched
with a live `remaining_seconds` read from the store's TTL. -/
structure HoldInfoData where
  listing_id : String
  created_at : Nat
  expires_in_seconds : Nat
  remaining_seconds : Int
deriving DecidableEq, Repr

/-- `RedisService.get_hold_info` (lines 205-219): reads the JSON under
`hold:{listing_id}` and, when present, attaches `remaining_seconds` from a
live `TTL` query; `none` on a missing key or a store error. -/
def get_hold_info (s : RedisState) (listing_id : String) : Option HoldInfoData :=
  match get s ("hold:" ++ listing_id) with
  | some (StoreVal.holdVal h) =>
    some ⟨h.listing_id, h.created_at, h.expires_in_seconds,
      keyTtl s ("hold:" ++ listing_id)⟩
  | _ => none

/-- `RedisService.is_on_hold` (lines 221-224). -/
def is_on_hold (s : RedisState) (listing_id : String) : Bool :=
  existsKey s ("hold:" ++ listing_id)

/-- Modelled from the spec: `store_idempotency_key` is invoked by the holds
route (`holds.py` line 123) but has no definition under the repository
sources; per the spec, idempotency records live under
`idempotency:{sha256(key)}` as the cached response JSON with a fixed 24h
(86400 s) expiry. -/
def store_idempotency_key (s : RedisState) (key_hash : String)
    (resp : HoldResponseData) : Bool × RedisState :=
  set s ("idempotency:" ++ key_hash) (StoreVal.idemVal resp) (some 86400)

/-- Modelled from the spec: `get_idempotency_result` is invoked by the holds
route (`holds.py` line 68) but has no definition under the repository
sources; per the spec it is the keyed lookup of a previously cached response
under `idempotency:{sha256(key)}`. -/
def get_idempotency_result (s : RedisState) (key_hash : String) :
    Option HoldResponseData :=
  match get s ("idempotency:" ++ key_hash) with
  | some (StoreVal.idemVal r) => some r
  | _ => none

end RedisService

/-- Python's `hashlib.sha256(key.encode()).hexdigest()` (an external
library), modelled as an injective deterministic encoding of the raw key:
the engine relies only on the digest being a deterministic function of the
key, never on its numeric properties. -/
def sha256_hexdigest (key : String) : String :=
  "sha256-" ++ key

/-! ## Hold Manager routes, `backend/api/routes/holds.py` -/

/-- Request body of `POST /api/holds` (`HoldRequest` in `holds.py`). -/
structure HoldRequest where
  listing_id : String
  customer_email : String
  customer_phone : Option String
  duration_minutes : Nat
deriving DecidableEq, Repr

/-- The error responses the holds routes raise (`HTTPException`s in
`holds.py`): 409 Conflict with the existing hold attached, 500 internal
server error, 404 not found. -/
inductive HoldApiError where
  | conflict (error : String) (message : String)
      (existing_hold : RedisService.HoldInfoData)
  | serverError (detail : String)
  | notFound (detail : String)
deriving DecidableEq, Repr

/-- HTTP status code carried by each error response. -/
def HoldApiError.statusCode : HoldApiError → Nat
  | .conflict _ _ _ => 409
  | .serverError _ => 500
  | .notFound _ => 404

/-- The tail of `create_hold` (`holds.py` lines 97-126): read back the hold
record to build the `HoldResponse` (500 when the read-back finds nothing),
then store the response in the Idempotency Cache when a key was supplied. -/
def create_hold_respond (req : HoldRequest) (idempotency_key : Option String)
    (s : RedisState) : Except HoldApiError HoldResponseData × RedisState :=
  match RedisService.get_hold_info s req.listing_id with
  | none =>
    (Except.error
      (HoldApiError.serverError "Failed to retrieve hold information after creation"),
      s)
  | some info =>
    let resp : HoldResponseData :=
      { hold_id := "hold_" ++ req.listing_id ++ "_" ++ toString info.created_at
        listing_id := req.listing_id
        status := "ACTIVE"
        expires_at := info.created_at + info.expires_in_seconds
        remaining_seconds := info.remaining_seconds
        created_from_idempotency := false }
    match idempotency_key with
    | some rawKey =>
      let s1 :=
        (RedisService.store_idempotency_key s (sha256_hexdigest rawKey) resp).2
      (Except.ok resp, s1)
    | none => (Except.ok resp, s)

/-- The part of `create_hold` (`holds.py` lines 78-126) that runs after the
idempotency-cache lookup missed (or no key was given): the atomic acquire,
the conflict branch (only entered when the acquire failed, and only when the
existing hold is still readable), then the shared respond path. -/
def create_hold_core (req : HoldRequest) (idempotency_key : Option String)
    (s : RedisState) : Except HoldApiError HoldResponseData × RedisState :=
  let acq := RedisService.create_hold_lock s req.listing_id req.duration_minutes
  let s1 := acq.2
  if acq.1 then create_hold_respond req idempotency_key s1
  else
    match RedisService.get_hold_info s1 req.listing_id with
    | some existing =>
      (Except.error (HoldApiError.conflict "LISTING_ALREADY_ON_HOLD"
        ("Listing " ++ req.listing_id ++ " is already on hold") existing), s1)
    | none => create_hold_respond req idempotency_key s1

/-- `POST /api/holds` (`create_hold`, `holds.py` lines 39-126): when an
`Idempotency-Key` header is present the hashed key is looked up first and a
cached response is replayed with `created_from_idempotency = true`; otherwise
the core acquire/respond path runs. -/
def create_hold (req : HoldRequest) (idempotency_key : Option String)
    (s : RedisState) : Except HoldApiError HoldResponseData × RedisState :=
  match idempotency_key with
  | some rawKey =>
    match RedisService.get_idempotency_result s (sha256_hexdigest rawKey) with
    | some cached =>
      (Except.ok { cached with created_from_idempotency := true }, s)
    | none => create_hold_core req idempotency_key s
  | none => create_hold_core req none s

/-- Response of `GET /api/holds/{listing_id}` (`get_hold_status`,
`holds.py` lines 138-169). -/
inductive HoldStatusResult where
  | noHold (listing_id : String)
  | activeHold (hold_id : String) (listing_id : String) (status : String)
      (expires_at : Nat) (remaining_seconds : Int)
deriving DecidableEq, Repr

/-- `GET /api/holds/{listing_id}`: read-only snapshot of the hold state. -/
def get_hold_status (listing_id : String) (s : RedisState) : HoldStatusResult :=
  match RedisService.get_hold_info s listing_id with
  | none => HoldStatusResult.noHold listing_id
  | some info =>
    HoldStatusResult.activeHold
      ("hold_" ++ listing_id ++ "_" ++ toString info.created_at)
      listing_id "ACTIVE" (info.created_at + info.expires_in_seconds)
      info.remaining_seconds

/-- Success body of `DELETE /api/holds/{listing_id}`. -/
structure ReleaseResponse where
  status : String
  listing_id : String
  message : String
deriving DecidableEq, Repr

/-- `DELETE /api/holds/{listing_id}` (`release_hold`, `holds.py` lines
179-211): deletes the lock and returns `RELEASED`, or a 404 when no live
hold record existed. -/
def release_hold (listing_id : String) (s : RedisState) :
    Except HoldApiError ReleaseResponse × RedisState :=
  let rel := RedisService.release_hold_lock s listing_id
  if rel.1 then
    (Except.ok
      { status := "RELEASED", listing_id := listing_id
        message := "Hold released for listing " ++ listing_id }, rel.2)
  else
    (Except.error
      (HoldApiError.notFound ("No active hold found for listing " ++ listing_id)),
      rel.2)

/-! ## Availability Overlay, `backend/services/availability.py` -/

/-- `SlotStatus` enum from `models_postgres.py`. -/
inductive SlotStatus where
  | AVAILABLE
  | BUSY
  | MAINTENANCE
deriving DecidableEq, Repr

/-- A persisted `availability_slots` row (`AvailabilitySlot` in
`models_postgres.py`), restricted to the columns the availability service
reads; times are epoch seconds. -/
structure AvailabilitySlot where
  id : Nat
  aircraft_id : String
  start_time : Nat
  end_time : Nat
  status : SlotStatus
  source : String
  notes : Option String
  created_at : Nat
  updated_at : Nat
deriving DecidableEq, Repr

/-- The SQL overlap condition used by both `create_or_update_slot` and
`check_slot_availability` (`availability.py` lines 35-44 and 171-180):
same aircraft and
`(start_time <= start AND end_time > start) OR
 (start_time < end AND end_time >= end) OR
 (start_time >= start AND end_time <= end)`. -/
def slotOverlapCond (slot : AvailabilitySlot) (aircraft_id : String)
    (start_t end_t : Nat) : Bool :=
  slot.aircraft_id == aircraft_id &&
    ((decide (slot.start_time ≤ start_t) && decide (start_t < slot.end_time)) ||
     (decide (slot.start_time < end_t) && decide (end_t ≤ slot.end_time)) ||
     (decide (start_t ≤ slot.start_time) && decide (slot.end_time ≤ end_t)))

/-- Modelled from the spec: `availability.py` imports a range-aware
`get_hold_info(aircraft_id, start_time, end_time)` from the redis module,
but no function of that signature is defined under the repository sources
(`redis_service.py` only has the single-argument method). Per the spec, it
queries the Lock Store Adapter for an active hold on the resource and
reports it exactly when the hold's window overlaps the queried window. -/
def get_hold_info_range (s : RedisState) (aircraft_id : String)
    (start_t end_t : Nat) : Option RedisService.HoldInfoData :=
  match RedisService.get_hold_info s aircraft_id with
  | some info =>
    if decide (info.created_at < end_t) &&
        decide (start_t < info.created_at + info.expires_in_seconds) then
      some info
    else none
  | none => none

/-- Derived display status: the base statuses plus the overlay-only
`ON_HOLD`. -/
inductive EffectiveStatus where
  | AVAILABLE
  | BUSY
  | MAINTENANCE
  | ON_HOLD
deriving DecidableEq, Repr

/-- Pass-through of a base status into the display status. -/
def SlotStatus.toEffective : SlotStatus → EffectiveStatus
  | .AVAILABLE => EffectiveStatus.AVAILABLE
  | .BUSY => EffectiveStatus.BUSY
  | .MAINTENANCE => EffectiveStatus.MAINTENANCE

/-- One enriched slot of the `get_availability` response (`slot_data` dict,
`availability.py` lines 130-154). -/
structure SlotView where
  id : Nat
  aircraft_id : String
  start_time : Nat
  end_time : Nat
  status : SlotStatus
  source : String
  notes : Option String
  created_at : Nat
  updated_at : Nat
  hold_info : Option RedisService.HoldInfoData
  effective_status : EffectiveStatus
deriving DecidableEq, Repr

/-- The per-slot enrichment step of `get_availability` (lines 129-155): an
`AVAILABLE` slot is checked against the live lock state and becomes
`ON_HOLD` when an overlapping hold exists; any other base status passes
through unchanged with no store query. -/
def enrichSlot (s : RedisState) (slot : AvailabilitySlot) : SlotView :=
  if slot.status = SlotStatus.AVAILABLE then
    match get_hold_info_range s slot.aircraft_id slot.start_time slot.end_time with
    | some hi =>
      { id := slot.id, aircraft_id := slot.aircraft_id
        start_time := slot.start_time, end_time := slot.end_time
        status := slot.status, source := slot.source, notes := slot.notes
        created_at := slot.created_at, updated_at := slot.updated_at
        hold_info := some hi, effective_status := EffectiveStatus.ON_HOLD }
    | none =>
      { id := slot.id, aircraft_id := slot.aircraft_id
        start_time := slot.start_time, end_time := slot.end_time
        status := slot.status, source := slot.source, notes := slot.notes
        created_at := slot.created_at, updated_at := slot.updated_at
        hold_info := none, effective_status := EffectiveStatus.AVAILABLE }
  else
    { id := slot.id, aircraft_id := slot.aircraft_id
      start_time := slot.start_time, end_time := slot.end_time
      status := slot.status, source := slot.source, notes := slot.notes
      created_at := slot.created_at, updated_at := slot.updated_at
      hold_info := none, effective_status := slot.status.toEffective }

/-- Sort key of `get_availability`'s `order_by(aircraft_id, start_time)`. -/
def slotOrder (a b : AvailabilitySlot) : Bool :=
  decide (a.aircraft_id < b.aircraft_id) ||
    (a.aircraft_id == b.aircraft_id && decide (a.start_time ≤ b.start_time))

/-- `AvailabilityService.get_availability` (`availability.py` lines
98-157): filter the persisted slots by the optional aircraft and window
bounds (`end_time >= start_date`, `start_time <= end_date`), order by
`(aircraft_id, start_time)`, and enrich each slot with live hold state. -/
def get_availability (db : List AvailabilitySlot) (s : RedisState)
    (aircraft_id : Option String) (start_date : Option Nat)
    (end_date : Option Nat) : List SlotView :=
  let filtered := db.filter (fun slot =>
    (match aircraft_id with
     | some a => slot.aircraft_id == a
     | none => true) &&
    (match start_date with
     | some d => decide (d ≤ slot.end_time)
     | none => true) &&
    (match end_date with
     | some d => decide (slot.start_time ≤ d)
     | none => true))
  (filtered.mergeSort slotOrder).map (enrichSlot s)

/-- A conflicting-slot summary in the `SLOT_CONFLICT` response
(`availability.py` lines 195-203); `end_t` stands for the JSON field
`end`, a Lean keyword. -/
structure ConflictSlotOut where
  start : Nat
  end_t : Nat
  status : SlotStatus
  notes : Option String
deriving DecidableEq, Repr

/-- An available-slot summary in the `available=true` response
(lines 218-226). -/
structure AvailableSlotOut where
  start : Nat
  end_t : Nat
  status : SlotStatus
deriving DecidableEq, Repr

/-- Result of `check_slot_availability`; the fields absent from a given
Python response dict are `[]`/`none` here. -/
structure AvailabilityDecision where
  available : Bool
  reason : Option String
  conflicting_slots : List ConflictSlotOut
  hold_info : Option RedisService.HoldInfoData
  available_slots : List AvailableSlotOut
deriving DecidableEq, Repr

/-- `AvailabilityService.check_slot_availability` (`availability.py` lines
159-227): (1) any overlapping `BUSY`/`MAINTENANCE` slot blocks with
`SLOT_CONFLICT`; (2) otherwise an overlapping active hold blocks with
`ACTIVE_HOLD` and the hold snapshot; (3) otherwise the window is
available. -/
def check_slot_availability (db : List AvailabilitySlot) (s : RedisState)
    (aircraft_id : String) (start_time end_time : Nat) : AvailabilityDecision :=
  let conflicting := db.filter
    (fun slot => slotOverlapCond slot aircraft_id start_time end_time)
  let blocking := conflicting.filter
    (fun slot => slot.status == SlotStatus.BUSY ||
      slot.status == SlotStatus.MAINTENANCE)
  if blocking.isEmpty then
    match get_hold_info_range s aircraft_id start_time end_time with
    | some hi =>
      { available := false, reason := some "ACTIVE_HOLD"
        conflicting_slots := [], hold_info := some hi, available_slots := [] }
    | none =>
      { available := true, reason := none, conflicting_slots := []
        hold_info := none
        available_slots :=
          (conflicting.filter (fun slot => slot.status == SlotStatus.AVAILABLE)).map
            (fun slot => ⟨slot.start_time, slot.end_time, slot.status⟩) }
  else
    { available := false, reason := some "SLOT_CONFLICT"
      conflicting_slots :=
        blocking.map (fun slot =>
          ⟨slot.start_time, slot.end_time, slot.status, slot.notes⟩)
      hold_info := none, available_slots := [] }

/-- Errors of `create_or_update_slot`: the `ValueError` raised on a
non-exact overlap (carrying the overlapping rows it reports), and the
`MultipleResultsFound` that `scalar_one_or_none()` raises when several rows
match the exact-window query. -/
inductive UpsertError where
  | overlapError (overlaps : List AvailabilitySlot)
  | multipleExactMatches
deriving DecidableEq, Repr

/-- `AvailabilityService.create_or_update_slot` (`availability.py` lines
20-96): an exact `(aircraft_id, start, end)` match is updated in place
(status, source, notes, `updated_at`); otherwise any overlap raises and
nothing is persisted; otherwise a new row (`freshId`, timestamps `nowT`) is
inserted. -/
def create_or_update_slot (db : List AvailabilitySlot) (nowT : Nat)
    (freshId : Nat) (aircraft_id : String) (start_t end_t : Nat)
    (status : SlotStatus) (source : String) (notes : Option String) :
    Except UpsertError (AvailabilitySlot × List AvailabilitySlot) :=
  let overlapping := db.filter
    (fun slot => slotOverlapCond slot aircraft_id start_t end_t)
  let exactMatches := db.filter (fun slot =>
    slot.aircraft_id == aircraft_id && slot.start_time == start_t &&
      slot.end_time == end_t)
  match exactMatches with
  | [existing] =>
    let updated := { existing with
      status := status, source := source, notes := notes, updated_at := nowT }
    Except.ok (updated,
      db.map (fun slot => if slot.id == existing.id then updated else slot))
  | [] =>
    if overlapping.isEmpty then
      let newSlot : AvailabilitySlot :=
        ⟨freshId, aircraft_id, start_t, end_t, status, source, notes, nowT, nowT⟩
      Except.ok (newSlot, db ++ [newSlot])
    else Except.error (UpsertError.overlapError overlapping)
  | _ => Except.error UpsertError.multipleExactMatches

/-- Two slots' half-open time windows intersecting. -/
def slotsOverlap (a b : AvailabilitySlot) : Prop :=
  a.start_time < b.end_time ∧ b.start_time < a.end_time

/-- The schedule-store invariant maintained by `create_or_update_slot`: no
two distinct persisted slots of the same aircraft overlap. -/
def SlotsInvariant (db : List AvailabilitySlot) : Prop :=
  db.Pairwise (fun a b => a.aircraft_id = b.aircraft_id → ¬ slotsOverlap a b)

/-! ## Interleaving model of N simultaneous acquires -/

/-- N simultaneous `create_hold` callers racing on one resource, as in
`tests/test_holds_concurrency.py`: each caller's only mutating store command
is the identical atomic `SET hold:{id} ... NX EX` issued by
`create_hold_lock`, so an arbitrary interleaving of the N callers performs
those N atomic steps in some total order; the k-th element of the returned
list is the acquire outcome of the k-th caller in interleaving order. -/
def runRace (listing_id : String) (minutes : Nat) :
    Nat → RedisState → List Bool × RedisState
  | 0, s => ([], s)
  | n + 1, s =>
    let acq := RedisService.create_hold_lock s listing_id minutes
    let rest := runRace listing_id minutes n acq.2
    (acq.1 :: rest.1, rest.2)

/-! ## Concrete states used by witnesses and counterexamples -/

/-- An empty, reachable store at time 100. -/
def sFree : RedisState := ⟨[], 100, true⟩

/-- A reachable store holding a live hold on listing `ac1` (created at 50
with a 3600 s TTL, so 3550 s remain at time 100). -/
def sHeld : RedisState :=
  ⟨[⟨"hold:ac1", StoreVal.holdVal ⟨"ac1", 50, 3600⟩, some 3650⟩], 100, true⟩

/-- The same store contents as `sHeld` but with the backing store
unreachable. -/
def sDown : RedisState :=
  ⟨[⟨"hold:ac1", StoreVal.holdVal ⟨"ac1", 50, 3600⟩, some 3650⟩], 100, false⟩

/-- An `AVAILABLE` slot on resource `r1`, 10:00-12:00 (epoch seconds of the
day). -/
def slot7 : AvailabilitySlot :=
  ⟨1, "r1", 36000, 43200, SlotStatus.AVAILABLE, "PORTAL", none, 0, 0⟩

/-- A `BUSY` slot on resource `r1` over the same window as `slot7`. -/
def slot9 : AvailabilitySlot :=
  ⟨2, "r1", 36000, 43200, SlotStatus.BUSY, "PORTAL", none, 0, 0⟩

/-- A reachable store with an active hold on `r1` from 10:30 lasting 30
minutes (window 37800-39600), observed at 10:31:40. -/
def sHold7 : RedisState :=
  ⟨[⟨"hold:r1", StoreVal.holdVal ⟨"r1", 37800, 1800⟩, some 39600⟩], 37900, true⟩

/-- A persisted slot on aircraft `ac1` over 100-200, used by the upsert
witness. -/
def slotA : AvailabilitySlot :=
  ⟨1, "ac1", 100, 200, SlotStatus.AVAILABLE, "PORTAL", none, 0, 0⟩

/-! ## Basic lemmas about the store model -/

@[simp] theorem setEntry_up (s : RedisState) (k : String) (v : StoreVal)
    (t : Option Nat) : (s.setEntry k v t).up = s.up := rfl

@[simp] theorem setEntry_now (s : RedisState) (k : String) (v : StoreVal)
    (t : Option Nat) : (s.setEntry k v t).now = s.now := rfl

@[simp] theorem advance_up (s : RedisState) (d : Nat) : (s.advance d).up = s.up := rfl

@[simp] theorem advance_now (s : RedisState) (d : Nat) :
    (s.advance d).now = s.now + d := rfl

@[simp] theorem advance_entries (s : RedisState) (d : Nat) :
    (s.advance d).entries = s.entries := rfl

theorem find?_filter_of_imp {α : Type} (p q : α → Bool) (l : List α)
    (h : ∀ a, p a = true → q a = true) :
    (l.filter q).find? p = l.find? p := by
  induction l with
  | nil => rfl
  | cons a l ih =>
    by_cases hq : q a = true
    · rw [List.filter_cons_of_pos hq, List.find?_cons, List.find?_cons]
      cases hp : p a
      · exact ih
      · rfl
    · have hp : p a = false := by
        cases hp : p a
        · rfl
        · exact absurd (h a hp) hq
      rw [List.filter_cons_of_neg hq, List.find?_cons, hp, ih]

theorem find?_filter_disjoint {α : Type} (p q : α → Bool) (l : List α)
    (h : ∀ a, p a = true → q a = false) :
    (l.filter q).find? p = none := by
  induction l with
  | nil => rfl
  | cons a l ih =>
    by_cases hq : q a = true
    · have hp : p a = false := by
        cases hp : p a
        · rfl
        · rw [h a hp] at hq
          exact absurd hq (by simp)
      rw [List.filter_cons_of_pos hq, List.find?_cons, hp, ih]
    · rw [List.filter_cons_of_neg hq, ih]

theorem liveFind_setEntry_self (s : RedisState) (k : String) (v : StoreVal)
    (t : Nat) (h : s.now < t) :
    (s.setEntry k v (some t)).liveFind k = some ⟨k, v, some t⟩ := by
  simp [RedisState.setEntry, RedisState.liveFind, List.find?_cons, Entry.liveAt, h]

theorem liveFind_setEntry_other (s : RedisState) (k k' : String) (v : StoreVal)
    (t : Option Nat) (hne : k' ≠ k) :
    (s.setEntry k v t).liveFind k' = s.liveFind k' := by
  unfold RedisState.setEntry RedisState.liveFind
  rw [List.find?_cons]
  have hhead : ((⟨k, v, t⟩ : Entry).key == k') = false := by
    simp [Ne.symm hne]
  simp only [hhead, Bool.false_and]
  exact find?_filter_of_imp _ _ s.entries (by
    intro e he
    have hk : e.key = k' := by
      have := (Bool.and_eq_true _ _).mp he
      exact eq_of_beq this.1
    simp [hk, hne])

theorem liveFind_delete_self (s : RedisState) (k : String) (hup : s.up = true) :
    ((RedisService.delete s k).2).liveFind k = none := by
  simp only [RedisService.delete, hup, Bool.not_true, Bool.false_eq_true,
    if_false, RedisState.liveFind]
  exact find?_filter_disjoint _ _ s.entries (by
    intro e he
    have hk : e.key = k := by
      have := (Bool.and_eq_true _ _).mp he
      exact eq_of_beq this.1
    simp [hk])

theorem delete_up (s : RedisState) (k : String) :
    ((RedisService.delete s k).2).up = s.up := by
  unfold RedisService.delete
  by_cases h : s.up = true <;> simp [h]

theorem create_hold_lock_of_absent (s : RedisState) (lid : String) (m : Nat)
    (hup : s.up = true) (habs : s.liveFind ("hold:" ++ lid) = none) :
    RedisService.create_hold_lock s lid m =
      (true, s.setEntry ("hold:" ++ lid)
        (StoreVal.holdVal ⟨lid, s.now, m * 60⟩) (some (s.now + m * 60))) := by
  simp [RedisService.create_hold_lock, hup, habs]

theorem create_hold_lock_of_present (s : RedisState) (lid : String) (m : Nat)
    (hup : s.up = true) (hpres : (s.liveFind ("hold:" ++ lid)).isSome = true) :
    RedisService.create_hold_lock s lid m = (false, s) := by
  simp [RedisService.create_hold_lock, hup, hpres]

theorem get_hold_info_after_acquire (s : RedisState) (lid : String) (m : Nat)
    (hup : s.up = true) (hm : 0 < m) :
    RedisService.get_hold_info
      (s.setEntry ("hold:" ++ lid) (StoreVal.holdVal ⟨lid, s.now, m * 60⟩)
        (some (s.now + m * 60))) lid =
      some ⟨lid, s.now, m * 60, ((m * 60 : Nat) : Int)⟩ := by
  have hl := liveFind_setEntry_self s ("hold:" ++ lid)
    (StoreVal.holdVal ⟨lid, s.now, m * 60⟩) (s.now + m * 60) (by omega)
  simp only [RedisService.get_hold_info, RedisService.get, RedisService.keyTtl,
    setEntry_up, setEntry_now, hup, Bool.not_true, Bool.false_eq_true, if_false, hl,
    Option.map_some]
  norm_num

/-! ## C3: the lock acquire is a conditional-set with auto-expiry -/

/-- C3: `create_hold_lock` is one atomic step on the store that creates the
lock record under the single key `hold:{resource_id}` only if no live record
is there — with expiry exactly `ttl = minutes * 60` seconds after the
current instant — and returns `true`; when a live record is present it
returns `false` and leaves the store state unchanged. Being a single
function on `RedisState`, the operation is one indivisible conditional-set,
never a read-then-write sequence of separate steps. -/
theorem C3_try_acquire_conditional_set (s : RedisState) (lid : String)
    (minutes : Nat) (hup : s.up = true) :
    (s.liveFind ("hold:" ++ lid) = none →
      RedisService.create_hold_lock s lid minutes =
        (true, s.setEntry ("hold:" ++ lid)
          (StoreVal.holdVal ⟨lid, s.now, minutes * 60⟩)
          (some (s.now + minutes * 60)))) ∧
    (∀ e, s.liveFind ("hold:" ++ lid) = some e →
      RedisService.create_hold_lock s lid minutes = (false, s)) :=
  ⟨fun habs => create_hold_lock_of_absent s lid minutes hup habs,
   fun _ he => create_hold_lock_of_present s lid minutes hup (by simp [he])⟩

/-- Witness for C3 at concrete inputs: an acquire on the empty store
creates the expiring record and reports `true`; an acquire on a held store
reports `false` and changes nothing. -/
theorem C3_witness :
    RedisService.create_hold_lock sFree "ac1" 60 =
      (true, sFree.setEntry ("hold:" ++ "ac1")
        (StoreVal.holdVal ⟨"ac1", sFree.now, 60 * 60⟩)
        (some (sFree.now + 60 * 60))) ∧
    RedisService.create_hold_lock sHeld "ac1" 60 = (false, sHeld) :=
  ⟨(C3_try_acquire_conditional_set sFree "ac1" 60 rfl).1 rfl,
   (C3_try_acquire_conditional_set sHeld "ac1" 60 rfl).2
     ⟨"hold:ac1", StoreVal.holdVal ⟨"ac1", 50, 3600⟩, some 3650⟩ (by decide)⟩

/-! ## C4: behaviour when the backing store is unreachable -/

/-- Counterexample to C4 as stated: at the concrete state `sDown` — store
unreachable while a live hold record on `ac1` sits in its contents — every
adapter operation is mapped to an ordinary `false`/absent result instead of
failing with a `StoreUnavailableError`: the acquire reports `false` (the
same outcome as an ordinary conflict), the read reports the record absent,
`exists` reports `false`, and releasing the (actually held) resource
surfaces as a 404 NotFound client outcome, not a server error. -/
theorem C4_counterexample :
    RedisService.create_hold_lock sDown "ac1" 60 = (false, sDown) ∧
    RedisService.get_hold_info sDown "ac1" = none ∧
    RedisService.existsKey sDown "hold:ac1" = false ∧
    RedisService.release_hold_lock sDown "ac1" = (false, sDown) ∧
    (release_hold "ac1" sDown).1 =
      Except.error (HoldApiError.notFound "No active hold found for listing ac1") ∧
    (HoldApiError.notFound "No active hold found for listing ac1").statusCode ≠ 500 := by
  refine ⟨rfl, rfl, rfl, rfl, rfl, by decide⟩

/-- C4 amended: whenever the backing store is unreachable, every Lock Store
Adapter operation catches the store error internally and returns its
ordinary failure value — `false` for the acquire, delete and existence
check, absent for reads — performing no automatic retries (each operation is
a single attempt that leaves the state unchanged); no store-unavailable
error is surfaced to the caller, and a release during downtime surfaces as
a 404 NotFound. -/
theorem C4_store_down_returns_ordinary_failures (s : RedisState) (lid k : String)
    (m : Nat) (hdown : s.up = false) :
    RedisService.create_hold_lock s lid m = (false, s) ∧
    RedisService.delete s k = (false, s) ∧
    RedisService.get s k = none ∧
    RedisService.existsKey s k = false ∧
    RedisService.get_hold_info s lid = none ∧
    RedisService.keyTtl s k = -1 ∧
    release_hold lid s =
      (Except.error
        (HoldApiError.notFound ("No active hold found for listing " ++ lid)), s) ∧
    (HoldApiError.notFound ("No active hold found for listing " ++ lid)).statusCode
      = 404 := by
  refine ⟨?_, ?_, ?_, ?_, ?_, ?_, ?_, rfl⟩
  · simp [RedisService.create_hold_lock, hdown]
  · simp [RedisService.delete, hdown]
  · simp [RedisService.get, hdown]
  · simp [RedisService.existsKey, hdown]
  · simp [RedisService.get_hold_info, RedisService.get, hdown]
  · simp [RedisService.keyTtl, hdown]
  · simp [release_hold, RedisService.release_hold_lock, RedisService.delete, hdown]

/-- Witness for the amended C4 at the concrete unreachable state `sDown`. -/
theorem C4_witness :
    RedisService.create_hold_lock sDown "ac1" 60 = (false, sDown) ∧
    RedisService.delete sDown "hold:ac1" = (false, sDown) ∧
    RedisService.get sDown "hold:ac1" = none ∧
    RedisService.existsKey sDown "hold:ac1" = false ∧
    RedisService.get_hold_info sDown "ac1" = none ∧
    RedisService.keyTtl sDown "hold:ac1" = -1 ∧
    release_hold "ac1" sDown =
      (Except.error
        (HoldApiError.notFound ("No active hold found for listing " ++ "ac1")), sDown) ∧
    (HoldApiError.notFound ("No active hold found for listing " ++ "ac1")).statusCode
      = 404 :=
  C4_store_down_returns_ordinary_failures sDown "ac1" "hold:ac1" 60 rfl

/-! ## C5: the Conflict outcome and its payload -/

/-- Counterexample to C5 as stated: at the concrete held state `sHeld`, the
create-hold route does return HTTP 409 with the existing hold's snapshot,
but the error code it carries is `LISTING_ALREADY_ON_HOLD`, not the
`ALREADY_HELD` the claim asserts. -/
theorem C5_counterexample :
    (create_hold ⟨"ac1", "c@example.com", none, 60⟩ none sHeld).1 =
      Except.error (HoldApiError.conflict "LISTING_ALREADY_ON_HOLD"
        "Listing ac1 is already on hold" ⟨"ac1", 50, 3600, 3550⟩) ∧
    "LISTING_ALREADY_ON_HOLD" ≠ "ALREADY_HELD" :=
  ⟨rfl, by decide⟩

/-- C5 amended: for every `create_hold` call whose acquire fails because a
live hold record exists, the route reads the existing record and returns a
Conflict (HTTP 409) whose error code is `LISTING_ALREADY_ON_HOLD` (not
`ALREADY_HELD`), carrying the existing hold's full snapshot — its listing,
creation instant and live remaining seconds — and leaves the store
unchanged; the Conflict is never collapsed into a generic error. -/
theorem C5_conflict_carries_existing_snapshot (s : RedisState)
    (req : HoldRequest) (e : Entry) (h : HoldData) (t : Nat)
    (hup : s.up = true)
    (hfind : s.liveFind ("hold:" ++ req.listing_id) = some e)
    (hval : e.val = StoreVal.holdVal h) (hexp : e.expiresAt = some t) :
    create_hold req none s =
      (Except.error (HoldApiError.conflict "LISTING_ALREADY_ON_HOLD"
        ("Listing " ++ req.listing_id ++ " is already on hold")
        ⟨h.listing_id, h.created_at, h.expires_in_seconds,
          (t : Int) - (s.now : Int)⟩), s) ∧
    (HoldApiError.conflict "LISTING_ALREADY_ON_HOLD"
        ("Listing " ++ req.listing_id ++ " is already on hold")
        ⟨h.listing_id, h.created_at, h.expires_in_seconds,
          (t : Int) - (s.now : Int)⟩).statusCode = 409 := by
  have hpres : (s.liveFind ("hold:" ++ req.listing_id)).isSome = true := by
    simp [hfind]
  have hacq := create_hold_lock_of_present s req.listing_id req.duration_minutes
    hup hpres
  have hinfo : RedisService.get_hold_info s req.listing_id =
      some ⟨h.listing_id, h.created_at, h.expires_in_seconds,
        (t : Int) - (s.now : Int)⟩ := by
    simp [RedisService.get_hold_info, RedisService.get, RedisService.keyTtl,
      hup, hfind, hval, hexp]
  exact ⟨by simp [create_hold, create_hold_core, hacq, hinfo], rfl⟩

/-- Witness for the amended C5 at the concrete held state `sHeld`. -/
theorem C5_witness :
    create_hold ⟨"ac1", "c@example.com", none, 60⟩ none sHeld =
      (Except.error (HoldApiError.conflict "LISTING_ALREADY_ON_HOLD"
        ("Listing " ++ "ac1" ++ " is already on hold")
        ⟨"ac1", 50, 3600, ((3650 : Nat) : Int) - (sHeld.now : Int)⟩), sHeld) ∧
    (HoldApiError.conflict "LISTING_ALREADY_ON_HOLD"
        ("Listing " ++ "ac1" ++ " is already on hold")
        ⟨"ac1", 50, 3600, ((3650 : Nat) : Int) - (sHeld.now : Int)⟩).statusCode
      = 409 :=
  C5_conflict_carries_existing_snapshot sHeld ⟨"ac1", "c@example.com", none, 60⟩
    ⟨"hold:ac1", StoreVal.holdVal ⟨"ac1", 50, 3600⟩, some 3650⟩
    ⟨"ac1", 50, 3600⟩ 3650 rfl rfl rfl rfl

/-! ## C6: release semantics -/

/-- C6: `release_hold_lock` deletes the lock record and reports whether a
live record existed; at the route level, releasing a held resource yields
200 `RELEASED` — after which the hold key is gone and an immediate
re-acquire succeeds — while releasing a resource with no live hold yields a
404 NotFound, never a silent success. -/
theorem C6_release_semantics (s : RedisState) (lid : String) (m : Nat)
    (hup : s.up = true) :
    (RedisService.release_hold_lock s lid).1 =
      (s.liveFind ("hold:" ++ lid)).isSome ∧
    (∀ e, s.liveFind ("hold:" ++ lid) = some e →
      release_hold lid s =
        (Except.ok ⟨"RELEASED", lid, "Hold released for listing " ++ lid⟩,
          (RedisService.release_hold_lock s lid).2) ∧
      ((RedisService.release_hold_lock s lid).2).liveFind ("hold:" ++ lid)
        = none ∧
      (RedisService.create_hold_lock
        ((RedisService.release_hold_lock s lid).2) lid m).1 = true) ∧
    (s.liveFind ("hold:" ++ lid) = none →
      release_hold lid s =
        (Except.error
          (HoldApiError.notFound ("No active hold found for listing " ++ lid)),
          (RedisService.release_hold_lock s lid).2) ∧
      (HoldApiError.notFound ("No active hold found for listing " ++ lid)).statusCode
        = 404) := by
  refine ⟨by simp [RedisService.release_hold_lock, RedisService.delete, hup],
    fun e he => ?_, fun habs => ?_⟩
  · have hgone : ((RedisService.release_hold_lock s lid).2).liveFind
        ("hold:" ++ lid) = none := liveFind_delete_self s ("hold:" ++ lid) hup
    have hup2 : ((RedisService.release_hold_lock s lid).2).up = true := by
      rw [RedisService.release_hold_lock, delete_up]; exact hup
    refine ⟨?_, hgone, ?_⟩
    · simp [release_hold, RedisService.release_hold_lock, RedisService.delete,
        hup, he]
    · rw [create_hold_lock_of_absent _ lid m hup2 hgone]
  · refine ⟨?_, rfl⟩
    simp [release_hold, RedisService.release_hold_lock, RedisService.delete,
      hup, habs]

/-- Witness for C6: releasing the held `ac1` in `sHeld` returns `RELEASED`,
removes the record and allows an immediate re-acquire; releasing `ac1` in
the empty store `sFree` is a 404. -/
theorem C6_witness :
    release_hold "ac1" sHeld =
      (Except.ok ⟨"RELEASED", "ac1", "Hold released for listing " ++ "ac1"⟩,
        (RedisService.release_hold_lock sHeld "ac1").2) ∧
    ((RedisService.release_hold_lock sHeld "ac1").2).liveFind ("hold:" ++ "ac1")
      = none ∧
    (RedisService.create_hold_lock
      ((RedisService.release_hold_lock sHeld "ac1").2) "ac1" 60).1 = true ∧
    release_hold "ac1" sFree =
      (Except.error
        (HoldApiError.notFound ("No active hold found for listing " ++ "ac1")),
        (RedisService.release_hold_lock sFree "ac1").2) := by
  obtain ⟨-, h2, -⟩ := C6_release_semantics sHeld "ac1" 60 rfl
  obtain ⟨ha, hb, hc⟩ := h2 ⟨"hold:ac1", StoreVal.holdVal ⟨"ac1", 50, 3600⟩,
    some 3650⟩ rfl
  obtain ⟨-, -, h3f⟩ := C6_release_semantics sFree "ac1" 60 rfl
  exact ⟨ha, hb, hc, (h3f rfl).1⟩

/-! ## C1: exactly one winner among N simultaneous acquires -/

theorem runRace_succ (lid : String) (m n : Nat) (s : RedisState) :
    runRace lid m (n + 1) s =
      ((RedisService.create_hold_lock s lid m).1 ::
        (runRace lid m n (RedisService.create_hold_lock s lid m).2).1,
       (runRace lid m n (RedisService.create_hold_lock s lid m).2).2) := rfl

theorem runRace_of_held (lid : String) (m : Nat) (s : RedisState)
    (hup : s.up = true) (hpres : (s.liveFind ("hold:" ++ lid)).isSome = true) :
    ∀ n, runRace lid m n s = (List.replicate n false, s) := by
  intro n
  induction n with
  | zero => rfl
  | succ k ih =>
    rw [runRace_succ, create_hold_lock_of_present s lid m hup hpres, ih,
      List.replicate_succ]

/-- C1: for any N ≥ 2 simultaneous `create_hold` callers on one resource —
modelled as an arbitrary interleaving of their atomic `SET NX EX` store
steps over a reachable store with no live hold — exactly one caller's
acquire succeeds and the remaining N−1 all fail; at every instant after the
winner's step the store shows that single live hold, so each loser's
subsequent conflict read returns the winner's snapshot and its route call
ends in the 409 Conflict outcome without touching the store. There is no
interleaving in which two acquires both return success. -/
theorem C1_mutual_exclusion (s : RedisState) (lid : String) (minutes n : Nat)
    (req : HoldRequest) (hup : s.up = true)
    (habs : s.liveFind ("hold:" ++ lid) = none) (hm : 0 < minutes)
    (hn : 2 ≤ n) (hreq : req.listing_id = lid)
    (hdur : req.duration_minutes = minutes) :
    (runRace lid minutes n s).1 = true :: List.replicate (n - 1) false ∧
    (runRace lid minutes n s).1.count true = 1 ∧
    (runRace lid minutes n s).1.count false = n - 1 ∧
    RedisService.get_hold_info (runRace lid minutes n s).2 lid =
      some ⟨lid, s.now, minutes * 60, ((minutes * 60 : Nat) : Int)⟩ ∧
    create_hold req none (runRace lid minutes n s).2 =
      (Except.error (HoldApiError.conflict "LISTING_ALREADY_ON_HOLD"
        ("Listing " ++ lid ++ " is already on hold")
        ⟨lid, s.now, minutes * 60, ((minutes * 60 : Nat) : Int)⟩),
       (runRace lid minutes n s).2) := by
  obtain ⟨k, rfl⟩ : ∃ k, n = k + 1 := ⟨n - 1, by omega⟩
  have hacq := create_hold_lock_of_absent s lid minutes hup habs
  have hupA : (s.setEntry ("hold:" ++ lid)
      (StoreVal.holdVal ⟨lid, s.now, minutes * 60⟩)
      (some (s.now + minutes * 60))).up = true := hup
  have hpresA : ((s.setEntry ("hold:" ++ lid)
      (StoreVal.holdVal ⟨lid, s.now, minutes * 60⟩)
      (some (s.now + minutes * 60))).liveFind ("hold:" ++ lid)).isSome = true := by
    rw [liveFind_setEntry_self s _ _ _ (by omega)]
    rfl
  have hrun : runRace lid minutes (k + 1) s =
      (true :: List.replicate k false,
        s.setEntry ("hold:" ++ lid)
          (StoreVal.holdVal ⟨lid, s.now, minutes * 60⟩)
          (some (s.now + minutes * 60))) := by
    rw [runRace_succ, hacq, runRace_of_held _ _ _ hupA hpresA]
  have hinfo := get_hold_info_after_acquire s lid minutes hup hm
  have hconf : create_hold req none (s.setEntry ("hold:" ++ lid)
      (StoreVal.holdVal ⟨lid, s.now, minutes * 60⟩)
      (some (s.now + minutes * 60))) =
      (Except.error (HoldApiError.conflict "LISTING_ALREADY_ON_HOLD"
        ("Listing " ++ lid ++ " is already on hold")
        ⟨lid, s.now, minutes * 60, ((minutes * 60 : Nat) : Int)⟩),
       s.setEntry ("hold:" ++ lid)
         (StoreVal.holdVal ⟨lid, s.now, minutes * 60⟩)
         (some (s.now + minutes * 60))) := by
    have hacq2 := create_hold_lock_of_present
      (s.setEntry ("hold:" ++ lid) (StoreVal.holdVal ⟨lid, s.now, minutes * 60⟩)
        (some (s.now + minutes * 60))) lid req.duration_minutes hupA hpresA
    simp [create_hold, create_hold_core, hreq, hacq2, hinfo]
  refine ⟨?_, ?_, ?_, ?_, ?_⟩
  · rw [hrun]
    simp [Nat.add_sub_cancel]
  · rw [hrun]
    simp [List.count_cons, List.count_replicate]
  · rw [hrun]
    simp [List.count_cons, List.count_replicate, Nat.add_sub_cancel]
  · rw [hrun]
    exact hinfo
  · rw [hrun]
    exact hconf

/-- Witness for C1: three simultaneous acquires on `ac1` over the empty
store — one winner, two losers, and the loser outcome is the 409 Conflict
carrying the winner's hold snapshot. -/
theorem C1_witness :
    (runRace "ac1" 60 3 sFree).1 = true :: List.replicate (3 - 1) false ∧
    (runRace "ac1" 60 3 sFree).1.count true = 1 ∧
    (runRace "ac1" 60 3 sFree).1.count false = 3 - 1 ∧
    RedisService.get_hold_info (runRace "ac1" 60 3 sFree).2 "ac1" =
      some ⟨"ac1", sFree.now, 60 * 60, ((60 * 60 : Nat) : Int)⟩ ∧
    create_hold ⟨"ac1", "c@example.com", none, 60⟩ none (runRace "ac1" 60 3 sFree).2 =
      (Except.error (HoldApiError.conflict "LISTING_ALREADY_ON_HOLD"
        ("Listing " ++ "ac1" ++ " is already on hold")
        ⟨"ac1", sFree.now, 60 * 60, ((60 * 60 : Nat) : Int)⟩),
       (runRace "ac1" 60 3 sFree).2) :=
  C1_mutual_exclusion sFree "ac1" 60 3 ⟨"ac1", "c@example.com", none, 60⟩ rfl rfl
    (by decide) (by decide) rfl rfl

/-! ## C2: idempotency-key replay -/

theorem hold_key_ne_idem_key (a b : String) :
    ("hold:" ++ a) ≠ ("idempotency:" ++ b) := by
  intro h
  have hd : ("hold:" ++ a).data = ("idempotency:" ++ b).data := congrArg String.data h
  rw [String.data_append, String.data_append] at hd
  have h1 : "hold:".data = ['h', 'o', 'l', 'd', ':'] := rfl
  have h2 : "idempotency:".data =
    ['i', 'd', 'e', 'm', 'p', 'o', 't', 'e', 'n', 'c', 'y', ':'] := rfl
  rw [h1, h2] at hd
  simp at hd

theorem liveFind_advance_setEntry_self (s : RedisState) (k : String)
    (v : StoreVal) (t d : Nat) (h : s.now + d < t) :
    ((s.setEntry k v (some t)).advance d).liveFind k = some ⟨k, v, some t⟩ := by
  simp [RedisState.setEntry, RedisState.advance, RedisState.liveFind,
    List.find?_cons, Entry.liveAt, h]

/-- C2: over a reachable store with no cached record for the raw key and a
free resource, the first `create_hold` call bearing the key performs the
lock acquisition (the hold record is live afterwards) and caches its exact
response under the hashed key; a second call presenting the same raw key any
`d < 86400` seconds later returns that cached response unchanged apart from
`created_from_idempotency = true` — the same `hold_id` — and leaves the
store state exactly as it found it: the lock acquisition is not re-executed
and no further side effect occurs. -/
theorem C2_idempotent_replay (s : RedisState) (req : HoldRequest)
    (rawKey : String) (d : Nat) (hup : s.up = true)
    (hidem : RedisService.get_idempotency_result s (sha256_hexdigest rawKey) = none)
    (habs : s.liveFind ("hold:" ++ req.listing_id) = none)
    (hm : 0 < req.duration_minutes) (hd : d < 86400) :
    ∃ resp1 s1,
      create_hold req (some rawKey) s = (Except.ok resp1, s1) ∧
      resp1.created_from_idempotency = false ∧
      resp1.hold_id = "hold_" ++ req.listing_id ++ "_" ++ toString s.now ∧
      (s1.liveFind ("hold:" ++ req.listing_id)).isSome = true ∧
      RedisService.get_idempotency_result s1 (sha256_hexdigest rawKey)
        = some resp1 ∧
      create_hold req (some rawKey) (s1.advance d) =
        (Except.ok { resp1 with created_from_idempotency := true }, s1.advance d) ∧
      ({ resp1 with created_from_idempotency := true } : HoldResponseData).hold_id
        = resp1.hold_id := by
  have hacq := create_hold_lock_of_absent s req.listing_id req.duration_minutes
    hup habs
  have hinfo := get_hold_info_after_acquire s req.listing_id req.duration_minutes
    hup hm
  set sA := s.setEntry ("hold:" ++ req.listing_id)
    (StoreVal.holdVal ⟨req.listing_id, s.now, req.duration_minutes * 60⟩)
    (some (s.now + req.duration_minutes * 60)) with hsA
  have hupA : sA.up = true := hup
  set resp1 : HoldResponseData :=
    { hold_id := "hold_" ++ req.listing_id ++ "_" ++ toString s.now
      listing_id := req.listing_id
      status := "ACTIVE"
      expires_at := s.now + req.duration_minutes * 60
      remaining_seconds := ((req.duration_minutes * 60 : Nat) : Int)
      created_from_idempotency := false } with hresp1
  set s1 := sA.setEntry ("idempotency:" ++ sha256_hexdigest rawKey)
    (StoreVal.idemVal resp1) (some (s.now + 86400)) with hs1
  have hcall1 : create_hold req (some rawKey) s = (Except.ok resp1, s1) := by
    simp only [create_hold, hidem, create_hold_core, hacq, create_hold_respond,
      hinfo, RedisService.store_idempotency_key, RedisService.set, hupA,
      Bool.not_true, Bool.false_eq_true, if_false, if_true, setEntry_now]
    rfl
  have hholdlive : (s1.liveFind ("hold:" ++ req.listing_id)).isSome = true := by
    rw [hs1, liveFind_setEntry_other _ _ _ _ _
      (hold_key_ne_idem_key req.listing_id (sha256_hexdigest rawKey))]
    rw [hsA, liveFind_setEntry_self s _ _ _ (by omega)]
    rfl
  have hups1 : s1.up = true := hup
  have hlive1 : s1.liveFind ("idempotency:" ++ sha256_hexdigest rawKey) =
      some ⟨"idempotency:" ++ sha256_hexdigest rawKey, StoreVal.idemVal resp1,
        some (s.now + 86400)⟩ := by
    rw [hs1]
    exact liveFind_setEntry_self sA _ _ _ (by simp only [hsA, setEntry_now]; omega)
  have hcache : RedisService.get_idempotency_result s1 (sha256_hexdigest rawKey)
      = some resp1 := by
    simp [RedisService.get_idempotency_result, RedisService.get, hups1, hlive1]
  have hliveAdv : ((s1.advance d)).liveFind
      ("idempotency:" ++ sha256_hexdigest rawKey) =
      some ⟨"idempotency:" ++ sha256_hexdigest rawKey, StoreVal.idemVal resp1,
        some (s.now + 86400)⟩ := by
    rw [hs1]
    exact liveFind_advance_setEntry_self sA _ _ _ d
      (by simp only [hsA, setEntry_now]; omega)
  have hcacheAdv : RedisService.get_idempotency_result (s1.advance d)
      (sha256_hexdigest rawKey) = some resp1 := by
    simp [RedisService.get_idempotency_result, RedisService.get, hups1, hliveAdv]
  refine ⟨resp1, s1, hcall1, rfl, rfl, hholdlive, hcache, ?_, rfl⟩
  simp [create_hold, hcacheAdv]

/-- Witness for C2 at concrete inputs: rerunning `create_hold` for `ac1`
with raw key `K1` one hour later replays the cached response. -/
theorem C2_witness :
    ∃ resp1 s1,
      create_hold ⟨"ac1", "c@example.com", none, 60⟩ (some "K1") sFree =
        (Except.ok resp1, s1) ∧
      resp1.created_from_idempotency = false ∧
      resp1.hold_id = "hold_" ++ "ac1" ++ "_" ++ toString sFree.now ∧
      (s1.liveFind ("hold:" ++ "ac1")).isSome = true ∧
      RedisService.get_idempotency_result s1 (sha256_hexdigest "K1") = some resp1 ∧
      create_hold ⟨"ac1", "c@example.com", none, 60⟩ (some "K1") (s1.advance 3600) =
        (Except.ok { resp1 with created_from_idempotency := true }, s1.advance 3600) ∧
      ({ resp1 with created_from_idempotency := true } : HoldResponseData).hold_id
        = resp1.hold_id :=
  C2_idempotent_replay sFree ⟨"ac1", "c@example.com", none, 60⟩ "K1" 3600 rfl rfl
    rfl (by decide) (by decide)

/-! ## C7 and C9: the availability overlay -/

theorem get_hold_info_range_eq_some_iff (s : RedisState) (a : String)
    (st et : Nat) (info : RedisService.HoldInfoData) :
    get_hold_info_range s a st et = some info ↔
      RedisService.get_hold_info s a = some info ∧
      info.created_at < et ∧ st < info.created_at + info.expires_in_seconds := by
  unfold get_hold_info_range
  cases h : RedisService.get_hold_info s a with
  | none => simp
  | some i =>
    show (if _ then some i else none) = some info ↔ _
    constructor
    · intro hr
      by_cases hc : (decide (i.created_at < et) &&
          decide (st < i.created_at + i.expires_in_seconds)) = true
      · rw [if_pos hc] at hr
        obtain rfl := Option.some.inj hr
        simp only [Bool.and_eq_true, decide_eq_true_eq] at hc
        exact ⟨rfl, hc.1, hc.2⟩
      · rw [if_neg hc] at hr
        exact absurd hr (by simp)
    · rintro ⟨hi, h1, h2⟩
      obtain rfl := Option.some.inj hi
      rw [if_pos (by simp only [Bool.and_eq_true, decide_eq_true_eq]; exact ⟨h1, h2⟩)]

theorem enrichSlot_fields (s : RedisState) (slot : AvailabilitySlot) :
    (enrichSlot s slot).status = slot.status ∧
    (enrichSlot s slot).aircraft_id = slot.aircraft_id ∧
    (enrichSlot s slot).start_time = slot.start_time ∧
    (enrichSlot s slot).end_time = slot.end_time := by
  unfold enrichSlot
  by_cases h : slot.status = SlotStatus.AVAILABLE
  · rw [if_pos h]
    cases get_hold_info_range s slot.aircraft_id slot.start_time slot.end_time <;>
      exact ⟨rfl, rfl, rfl, rfl⟩
  · rw [if_neg h]
    exact ⟨rfl, rfl, rfl, rfl⟩

theorem enrichSlot_available_some (s : RedisState) (slot : AvailabilitySlot)
    (h : slot.status = SlotStatus.AVAILABLE) (hi : RedisService.HoldInfoData)
    (hr : get_hold_info_range s slot.aircraft_id slot.start_time slot.end_time
      = some hi) :
    (enrichSlot s slot).effective_status = EffectiveStatus.ON_HOLD ∧
    (enrichSlot s slot).hold_info = some hi := by
  unfold enrichSlot
  rw [if_pos h, hr]
  exact ⟨rfl, rfl⟩

theorem enrichSlot_available_none (s : RedisState) (slot : AvailabilitySlot)
    (h : slot.status = SlotStatus.AVAILABLE)
    (hr : get_hold_info_range s slot.aircraft_id slot.start_time slot.end_time
      = none) :
    (enrichSlot s slot).effective_status = EffectiveStatus.AVAILABLE ∧
    (enrichSlot s slot).hold_info = none := by
  unfold enrichSlot
  rw [if_pos h, hr]
  exact ⟨rfl, rfl⟩

theorem enrichSlot_not_available (s s' : RedisState) (slot : AvailabilitySlot)
    (h : ¬ slot.status = SlotStatus.AVAILABLE) :
    (enrichSlot s slot).effective_status = slot.status.toEffective ∧
    (enrichSlot s slot).hold_info = none ∧
    enrichSlot s slot = enrichSlot s' slot := by
  unfold enrichSlot
  rw [if_neg h, if_neg h]
  exact ⟨rfl, rfl, rfl⟩

/-- C7: every slot view returned by `get_availability` whose base status is
`AVAILABLE` has `effective_status = ON_HOLD` exactly when the live lock
state holds an active record for that slot's resource whose hold window
overlaps the slot's time window, and `effective_status = AVAILABLE`
otherwise; the decision is made by querying the live lock store. -/
theorem C7_overlay_effective_status (db : List AvailabilitySlot)
    (s : RedisState) (a? : Option String) (sd? ed? : Option Nat) (v : SlotView)
    (hv : v ∈ get_availability db s a? sd? ed?)
    (hst : v.status = SlotStatus.AVAILABLE) :
    (v.effective_status = EffectiveStatus.ON_HOLD ↔
      ∃ info, RedisService.get_hold_info s v.aircraft_id = some info ∧
        info.created_at < v.end_time ∧
        v.start_time < info.created_at + info.expires_in_seconds) ∧
    (v.effective_status = EffectiveStatus.AVAILABLE ↔
      ¬ ∃ info, RedisService.get_hold_info s v.aircraft_id = some info ∧
        info.created_at < v.end_time ∧
        v.start_time < info.created_at + info.expires_in_seconds) := by
  unfold get_availability at hv
  rw [List.mem_map] at hv
  obtain ⟨slot, hmem, rfl⟩ := hv
  obtain ⟨hstat, hair, hstart, hend⟩ := enrichSlot_fields s slot
  rw [hstat] at hst
  rw [hair, hstart, hend]
  cases hr : get_hold_info_range s slot.aircraft_id slot.start_time slot.end_time with
  | some hi =>
    obtain ⟨he, -⟩ := enrichSlot_available_some s slot hst hi hr
    rw [he]
    have hex : ∃ info, RedisService.get_hold_info s slot.aircraft_id = some info ∧
        info.created_at < slot.end_time ∧
        slot.start_time < info.created_at + info.expires_in_seconds := by
      obtain ⟨hg, h1, h2⟩ := (get_hold_info_range_eq_some_iff s _ _ _ hi).mp hr
      exact ⟨hi, hg, h1, h2⟩
    constructor
    · exact iff_of_true rfl hex
    · exact iff_of_false (by simp) (by simpa using hex)
  | none =>
    obtain ⟨he, -⟩ := enrichSlot_available_none s slot hst hr
    rw [he]
    have hnex : ¬ ∃ info, RedisService.get_hold_info s slot.aircraft_id = some info ∧
        info.created_at < slot.end_time ∧
        slot.start_time < info.created_at + info.expires_in_seconds := by
      rintro ⟨info, hg, h1, h2⟩
      have := (get_hold_info_range_eq_some_iff s slot.aircraft_id slot.start_time
        slot.end_time info).mpr ⟨hg, h1, h2⟩
      rw [hr] at this
      exact absurd this (by simp)
    constructor
    · exact iff_of_false (by simp) (by simpa using hnex)
    · exact iff_of_true rfl hnex

/-- C9: non-`AVAILABLE` base statuses pass through the overlay unchanged —
the identical view is produced at the same position under any two lock-store
states, with `effective_status` equal to the base status and no hold
attached — and the overlay is monotone: `effective_status = AVAILABLE` only
for base-`AVAILABLE` slots, and a base-`AVAILABLE` slot can only stay
`AVAILABLE` or become `ON_HOLD`; a lock can never restore availability. -/
theorem C9_lock_never_restores_availability (db : List AvailabilitySlot)
    (s s' : RedisState) (a? : Option String) (sd? ed? : Option Nat) :
    (∀ v ∈ get_availability db s a? sd? ed?,
      (¬ v.status = SlotStatus.AVAILABLE →
        v.effective_status = v.status.toEffective ∧ v.hold_info = none) ∧
      (v.effective_status = EffectiveStatus.AVAILABLE →
        v.status = SlotStatus.AVAILABLE) ∧
      (v.status = SlotStatus.AVAILABLE →
        v.effective_status = EffectiveStatus.AVAILABLE ∨
          v.effective_status = EffectiveStatus.ON_HOLD)) ∧
    (∀ (i : Nat) (v : SlotView),
      (get_availability db s a? sd? ed?)[i]? = some v →
      ¬ v.status = SlotStatus.AVAILABLE →
      (get_availability db s' a? sd? ed?)[i]? = some v) := by
  constructor
  · intro v hv
    unfold get_availability at hv
    rw [List.mem_map] at hv
    obtain ⟨slot, hmem, rfl⟩ := hv
    obtain ⟨hstat, -, -, -⟩ := enrichSlot_fields s slot
    refine ⟨fun hna => ?_, fun hav => ?_, fun hava => ?_⟩
    · rw [hstat] at hna ⊢
      obtain ⟨h1, h2, -⟩ := enrichSlot_not_available s s' slot hna
      exact ⟨h1, h2⟩
    · rw [hstat]
      by_contra hne
      obtain ⟨h1, -, -⟩ := enrichSlot_not_available s s' slot hne
      rw [h1] at hav
      cases hss : slot.status
      · exact hne hss
      · rw [hss] at hav
        exact absurd hav (by simp [SlotStatus.toEffective])
      · rw [hss] at hav
        exact absurd hav (by simp [SlotStatus.toEffective])
    · rw [hstat] at hava
      cases hr : get_hold_info_range s slot.aircraft_id slot.start_time
          slot.end_time with
      | some hi =>
        exact Or.inr (enrichSlot_available_some s slot hava hi hr).1
      | none =>
        exact Or.inl (enrichSlot_available_none s slot hava hr).1
  · intro i v hiv hna
    simp only [get_availability] at hiv ⊢
    rw [List.getElem?_map] at hiv ⊢
    rw [Option.map_eq_some'] at hiv
    obtain ⟨slot, hbase, hvv⟩ := hiv
    rw [hbase]
    have hstat := (enrichSlot_fields s slot).1
    have hna2 : ¬ slot.status = SlotStatus.AVAILABLE := by
      rw [← hstat, hvv]
      exact hna
    obtain ⟨-, -, heq⟩ := enrichSlot_not_available s s' slot hna2
    rw [show Option.map (enrichSlot s') (some slot)
        = some (enrichSlot s' slot) from rfl, ← heq, hvv]

/-- Witness for C7: the `AVAILABLE` slot `slot7` (10:00-12:00 on `r1`) with
an active overlapping hold in `sHold7` is reported `ON_HOLD`. -/
theorem C7_witness :
    (enrichSlot sHold7 slot7).effective_status = EffectiveStatus.ON_HOLD := by
  have hga : get_availability [slot7] sHold7 none none none
      = [enrichSlot sHold7 slot7] := by
    simp [get_availability, List.mergeSort_singleton]
  have hmem : enrichSlot sHold7 slot7 ∈
      get_availability [slot7] sHold7 none none none := by
    rw [hga]
    exact List.mem_singleton.mpr rfl
  have h := (C7_overlay_effective_status [slot7] sHold7 none none none _ hmem
    rfl).1
  exact h.mpr ⟨⟨"r1", 37800, 1800, 1700⟩, rfl, by decide, by decide⟩

/-- Witness for C9: the `BUSY` slot `slot9` keeps `effective_status = BUSY`
with no hold attached even though `sHold7` holds an active hold on `r1`. -/
theorem C9_witness :
    (enrichSlot sHold7 slot9).effective_status = SlotStatus.BUSY.toEffective ∧
    (enrichSlot sHold7 slot9).hold_info = none := by
  have hga : get_availability [slot9] sHold7 none none none
      = [enrichSlot sHold7 slot9] := by
    simp [get_availability, List.mergeSort_singleton]
  have hmem : enrichSlot sHold7 slot9 ∈
      get_availability [slot9] sHold7 none none none := by
    rw [hga]
    exact List.mem_singleton.mpr rfl
  have h := ((C9_lock_never_restores_availability [slot9] sHold7 sHold7 none
    none none).1 _ hmem).1 (by decide)
  exact h

/-! ## C8: point availability check priority order -/

theorem slotOverlapCond_iff (slot : AvailabilitySlot) (a : String) (st et : Nat)
    (hs : slot.start_time < slot.end_time) (hw : st < et) :
    slotOverlapCond slot a st et = true ↔
      (slot.aircraft_id = a ∧ slot.start_time < et ∧ st < slot.end_time) := by
  unfold slotOverlapCond
  simp only [Bool.and_eq_true, Bool.or_eq_true, decide_eq_true_eq, beq_iff_eq]
  constructor
  · rintro ⟨ha, hd⟩
    exact ⟨ha, by omega⟩
  · rintro ⟨ha, h1, h2⟩
    exact ⟨ha, by omega⟩

/-- C8: `check_slot_availability` decides in strict priority order: an
overlapping `BUSY`/`MAINTENANCE` slot yields `available = false` with
reason `SLOT_CONFLICT`; failing that, an active hold overlapping the window
yields `available = false` with reason `ACTIVE_HOLD` and the hold snapshot
attached; failing both — in particular with no slots and no holds — it
yields `available = true` with no reason. -/
theorem C8_check_priority (db : List AvailabilitySlot) (s : RedisState)
    (aircraft_id : String) (start_time end_time : Nat)
    (hproper : ∀ slot ∈ db, slot.start_time < slot.end_time)
    (hw : start_time < end_time) :
    ((∃ slot ∈ db, slot.aircraft_id = aircraft_id ∧
        (slot.status = SlotStatus.BUSY ∨ slot.status = SlotStatus.MAINTENANCE) ∧
        slot.start_time < end_time ∧ start_time < slot.end_time) →
      (check_slot_availability db s aircraft_id start_time end_time).available
        = false ∧
      (check_slot_availability db s aircraft_id start_time end_time).reason
        = some "SLOT_CONFLICT") ∧
    ((¬ ∃ slot ∈ db, slot.aircraft_id = aircraft_id ∧
        (slot.status = SlotStatus.BUSY ∨ slot.status = SlotStatus.MAINTENANCE) ∧
        slot.start_time < end_time ∧ start_time < slot.end_time) →
      ∀ info, RedisService.get_hold_info s aircraft_id = some info →
        info.created_at < end_time →
        start_time < info.created_at + info.expires_in_seconds →
        (check_slot_availability db s aircraft_id start_time end_time).available
          = false ∧
        (check_slot_availability db s aircraft_id start_time end_time).reason
          = some "ACTIVE_HOLD" ∧
        (check_slot_availability db s aircraft_id start_time end_time).hold_info
          = some info) ∧
    ((¬ ∃ slot ∈ db, slot.aircraft_id = aircraft_id ∧
        (slot.status = SlotStatus.BUSY ∨ slot.status = SlotStatus.MAINTENANCE) ∧
        slot.start_time < end_time ∧ start_time < slot.end_time) →
      (¬ ∃ info, RedisService.get_hold_info s aircraft_id = some info ∧
        info.created_at < end_time ∧
        start_time < info.created_at + info.expires_in_seconds) →
      (check_slot_availability db s aircraft_id start_time end_time).available
        = true ∧
      (check_slot_availability db s aircraft_id start_time end_time).reason
        = none) := by
  have hblock : (List.filter
      (fun slot => slot.status == SlotStatus.BUSY ||
        slot.status == SlotStatus.MAINTENANCE)
      (List.filter
        (fun slot => slotOverlapCond slot aircraft_id start_time end_time) db))
      = [] ↔
      ¬ ∃ slot ∈ db, slot.aircraft_id = aircraft_id ∧
        (slot.status = SlotStatus.BUSY ∨ slot.status = SlotStatus.MAINTENANCE) ∧
        slot.start_time < end_time ∧ start_time < slot.end_time := by
    rw [List.filter_filter, List.filter_eq_nil_iff]
    constructor
    · rintro h ⟨slot, hm, ha, hb, h1, h2⟩
      refine h slot hm ?_
      rw [Bool.and_eq_true]
      refine ⟨?_, (slotOverlapCond_iff slot aircraft_id start_time end_time
        (hproper slot hm) hw).mpr ⟨ha, h1, h2⟩⟩
      rcases hb with hb | hb <;> simp [hb]
    · intro hnB slot hm hcontra
      rw [Bool.and_eq_true] at hcontra
      obtain ⟨hbusy, hov⟩ := hcontra
      obtain ⟨ha, h1, h2⟩ := (slotOverlapCond_iff slot aircraft_id start_time
        end_time (hproper slot hm) hw).mp hov
      refine hnB ⟨slot, hm, ha, ?_, h1, h2⟩
      rcases Bool.or_eq_true _ _ |>.mp hbusy with hb | hb
      · exact Or.inl (by simpa using hb)
      · exact Or.inr (by simpa using hb)
  refine ⟨fun hB => ?_, fun hnB info hgi h1 h2 => ?_, fun hnB hnH => ?_⟩
  · have hne : ¬ ((List.filter
        (fun slot => slot.status == SlotStatus.BUSY ||
          slot.status == SlotStatus.MAINTENANCE)
        (List.filter
          (fun slot => slotOverlapCond slot aircraft_id start_time end_time)
          db)).isEmpty = true) := by
      rw [List.isEmpty_iff]
      intro h0
      exact (hblock.mp h0) hB
    simp only [check_slot_availability]
    rw [if_neg hne]
    exact ⟨rfl, rfl⟩
  · have hpos : (List.filter
        (fun slot => slot.status == SlotStatus.BUSY ||
          slot.status == SlotStatus.MAINTENANCE)
        (List.filter
          (fun slot => slotOverlapCond slot aircraft_id start_time end_time)
          db)).isEmpty = true := by
      rw [List.isEmpty_iff]
      exact hblock.mpr hnB
    have hr : get_hold_info_range s aircraft_id start_time end_time
        = some info :=
      (get_hold_info_range_eq_some_iff s aircraft_id start_time end_time
        info).mpr ⟨hgi, h1, h2⟩
    simp only [check_slot_availability]
    rw [if_pos hpos, hr]
    exact ⟨rfl, rfl, rfl⟩
  · have hpos : (List.filter
        (fun slot => slot.status == SlotStatus.BUSY ||
          slot.status == SlotStatus.MAINTENANCE)
        (List.filter
          (fun slot => slotOverlapCond slot aircraft_id start_time end_time)
          db)).isEmpty = true := by
      rw [List.isEmpty_iff]
      exact hblock.mpr hnB
    have hr : get_hold_info_range s aircraft_id start_time end_time = none := by
      cases hrange : get_hold_info_range s aircraft_id start_time end_time with
      | none => rfl
      | some i =>
        obtain ⟨hgi, hc1, hc2⟩ := (get_hold_info_range_eq_some_iff s aircraft_id
          start_time end_time i).mp hrange
        exact absurd ⟨i, hgi, hc1, hc2⟩ hnH
    simp only [check_slot_availability]
    rw [if_pos hpos, hr]
    exact ⟨rfl, rfl⟩

/-- Witness for C8 (Scenario C): with no persisted slots and an empty store,
the window 09:00-10:00 on `ac2` is reported available with no reason. -/
theorem C8_witness :
    (check_slot_availability [] sFree "ac2" 32400 36000).available = true ∧
    (check_slot_availability [] sFree "ac2" 32400 36000).reason = none := by
  obtain ⟨-, -, h3⟩ := C8_check_priority [] sFree "ac2" 32400 36000
    (by intro slot hm; cases hm) (by decide)
  refine h3 (by rintro ⟨slot, hm, -⟩; cases hm) ?_
  rintro ⟨info, hgi, -⟩
  rw [show RedisService.get_hold_info sFree "ac2" = none from rfl] at hgi
  exact Option.noConfusion hgi

/-! ## C10: the slot upsert preserves pairwise disjointness -/

theorem count_le_one_of_pairwise_irrefl {α : Type} [DecidableEq α]
    {R : α → α → Prop} {l : List α} (hp : l.Pairwise R) (a : α)
    (ha : ¬ R a a) : l.count a ≤ 1 := by
  induction l with
  | nil => simp
  | cons b l ih =>
    obtain ⟨hb, hl⟩ := List.pairwise_cons.mp hp
    rw [List.count_cons]
    by_cases hba : b = a
    · subst hba
      have hnm : b ∉ l := fun hm => ha (hb b hm)
      rw [List.count_eq_zero.mpr hnm, if_pos (beq_self_eq_true b)]
    · rw [if_neg (by simpa using hba)]
      have := ih hl
      omega

theorem filter_eq_singleton_of_unique {α : Type} [DecidableEq α]
    {p : α → Bool} {l : List α} {e : α}
    (he : e ∈ l) (hpe : p e = true)
    (huniq : ∀ a ∈ l, p a = true → a = e)
    (hcount : l.count e ≤ 1) :
    l.filter p = [e] := by
  induction l with
  | nil => cases he
  | cons b l ih =>
    rw [List.count_cons] at hcount
    by_cases hbe : b = e
    · subst hbe
      rw [List.filter_cons_of_pos hpe]
      rw [if_pos (beq_self_eq_true b)] at hcount
      have hnm : b ∉ l := List.count_eq_zero.mp (by omega)
      have hfl : l.filter p = [] := by
        rw [List.filter_eq_nil_iff]
        intro a ha hpa
        exact hnm ((huniq a (List.mem_cons_of_mem _ ha) hpa) ▸ ha)
      rw [hfl]
    · have hem : e ∈ l := by
        rcases List.mem_cons.mp he with h | h
        · exact absurd h.symm hbe
        · exact h
      have hpb : p b = false := by
        cases hpb : p b
        · rfl
        · exact absurd (huniq b (List.mem_cons_self b l) hpb) hbe
      rw [List.filter_cons_of_neg (by simp [hpb])]
      refine ih hem (fun a ha hpa => huniq a (List.mem_cons_of_mem _ ha) hpa) ?_
      rw [if_neg (by simpa using hbe)] at hcount
      omega

theorem slots_rel_symm : Symmetric (fun a b : AvailabilitySlot =>
    a.aircraft_id = b.aircraft_id → ¬ slotsOverlap a b) := by
  intro a b hab hba hover
  exact hab hba.symm ⟨hover.2, hover.1⟩

/-- C10: `create_or_update_slot` preserves pairwise disjointness of the
persisted slots of each aircraft: a request whose window exactly matches an
existing slot updates that slot in place (same window, new status, source,
notes and `updated_at`); a request whose window overlaps some existing slot
of the aircraft without matching one exactly raises `ValueError` and
persists nothing; only a window overlapping no existing slot of the
aircraft inserts a new row — and in both persisting branches the
disjointness invariant holds afterwards. -/
theorem C10_upsert_preserves_disjointness (db : List AvailabilitySlot)
    (nowT freshId : Nat) (aircraft_id : String) (start_t end_t : Nat)
    (status : SlotStatus) (source : String) (notes : Option String)
    (hInv : SlotsInvariant db)
    (hids : (db.map (fun slot => slot.id)).Nodup)
    (hproper : ∀ slot ∈ db, slot.start_time < slot.end_time)
    (hw : start_t < end_t) :
    (∀ e ∈ db, e.aircraft_id = aircraft_id → e.start_time = start_t →
      e.end_time = end_t →
      create_or_update_slot db nowT freshId aircraft_id start_t end_t status
          source notes =
        Except.ok ({ e with status := status, source := source, notes := notes, updated_at := nowT },
          db.map (fun slot => if slot.id == e.id then
            { e with status := status, source := source, notes := notes, updated_at := nowT } else slot)) ∧
      SlotsInvariant (db.map (fun slot => if slot.id == e.id then
        { e with status := status, source := source, notes := notes, updated_at := nowT } else slot))) ∧
    ((¬ ∃ e ∈ db, e.aircraft_id = aircraft_id ∧ e.start_time = start_t ∧
        e.end_time = end_t) →
      (∃ slot ∈ db, slot.aircraft_id = aircraft_id ∧
        slot.start_time < end_t ∧ start_t < slot.end_time) →
      ∃ ovl, create_or_update_slot db nowT freshId aircraft_id start_t end_t
          status source notes = Except.error (UpsertError.overlapError ovl)) ∧
    ((¬ ∃ slot ∈ db, slot.aircraft_id = aircraft_id ∧
        slot.start_time < end_t ∧ start_t < slot.end_time) →
      create_or_update_slot db nowT freshId aircraft_id start_t end_t status
          source notes =
        Except.ok (⟨freshId, aircraft_id, start_t, end_t, status, source,
            notes, nowT, nowT⟩,
          db ++ [⟨freshId, aircraft_id, start_t, end_t, status, source, notes,
            nowT, nowT⟩]) ∧
      SlotsInvariant (db ++ [⟨freshId, aircraft_id, start_t, end_t, status,
        source, notes, nowT, nowT⟩])) := by
  have hinj : ∀ ⦃x⦄, x ∈ db → ∀ ⦃y⦄, y ∈ db → x.id = y.id → x = y :=
    List.inj_on_of_nodup_map hids
  refine ⟨?_, ?_, ?_⟩
  · intro e he hair hst het
    have hpe : (e.aircraft_id == aircraft_id && e.start_time == start_t &&
        e.end_time == end_t) = true := by
      simp [hair, hst, het]
    have huniq : ∀ a ∈ db, (a.aircraft_id == aircraft_id &&
        a.start_time == start_t && a.end_time == end_t) = true → a = e := by
      intro a ham hpa
      simp only [Bool.and_eq_true, beq_iff_eq] at hpa
      obtain ⟨⟨ha1, ha2⟩, ha3⟩ := hpa
      by_cases hae : a = e
      · exact hae
      · exfalso
        have hR := List.Pairwise.forall slots_rel_symm hInv ham he hae
        refine hR (by rw [ha1, hair]) ⟨?_, ?_⟩
        · rw [ha2, het]
          exact hw
        · rw [hst, ha3]
          exact hw
    have hRee : ¬ (e.aircraft_id = e.aircraft_id → ¬ slotsOverlap e e) :=
      fun hR => hR rfl ⟨hproper e he, hproper e he⟩
    have hcount : db.count e ≤ 1 :=
      count_le_one_of_pairwise_irrefl hInv e hRee
    have hfilter : db.filter (fun slot => slot.aircraft_id == aircraft_id &&
        slot.start_time == start_t && slot.end_time == end_t) = [e] :=
      filter_eq_singleton_of_unique he hpe huniq hcount
    constructor
    · simp only [create_or_update_slot]
      rw [hfilter]
    · have hgeom : ∀ a ∈ db,
          ((if a.id == e.id then { e with status := status, source := source, notes := notes, updated_at := nowT } else a).aircraft_id
            = a.aircraft_id ∧
          (if a.id == e.id then { e with status := status, source := source, notes := notes, updated_at := nowT } else a).start_time
            = a.start_time ∧
          (if a.id == e.id then { e with status := status, source := source, notes := notes, updated_at := nowT } else a).end_time
            = a.end_time) := by
        intro a ham
        by_cases hid : (a.id == e.id) = true
        · have hae : a = e := hinj ham he (by simpa using hid)
          subst hae
          rw [if_pos hid]
          exact ⟨rfl, rfl, rfl⟩
        · rw [if_neg hid]
          exact ⟨rfl, rfl, rfl⟩
      unfold SlotsInvariant
      rw [List.pairwise_map]
      refine List.Pairwise.imp_of_mem ?_ hInv
      intro a b ham hbm hR hair2 hover
      obtain ⟨ga1, ga2, ga3⟩ := hgeom a ham
      obtain ⟨gb1, gb2, gb3⟩ := hgeom b hbm
      refine hR (by rw [← ga1, ← gb1]; exact hair2) ⟨?_, ?_⟩
      · rw [← ga2, ← gb3]
        exact hover.1
      · rw [← gb2, ← ga3]
        exact hover.2
  · intro hnoexact hov
    have hfex : db.filter (fun slot => slot.aircraft_id == aircraft_id &&
        slot.start_time == start_t && slot.end_time == end_t) = [] := by
      rw [List.filter_eq_nil_iff]
      intro a ham hpa
      simp only [Bool.and_eq_true, beq_iff_eq] at hpa
      exact hnoexact ⟨a, ham, hpa.1.1, hpa.1.2, hpa.2⟩
    obtain ⟨slot, hm, ha, h1, h2⟩ := hov
    have hovne : db.filter (fun slot => slotOverlapCond slot aircraft_id
        start_t end_t) ≠ [] :=
      List.ne_nil_of_mem (List.mem_filter.mpr ⟨hm,
        (slotOverlapCond_iff slot aircraft_id start_t end_t
          (hproper slot hm) hw).mpr ⟨ha, h1, h2⟩⟩)
    refine ⟨db.filter (fun slot => slotOverlapCond slot aircraft_id start_t
      end_t), ?_⟩
    simp [create_or_update_slot, hfex, List.isEmpty_eq_false.mpr hovne]
  · intro hnov
    have hfcond : db.filter (fun slot => slotOverlapCond slot aircraft_id
        start_t end_t) = [] := by
      rw [List.filter_eq_nil_iff]
      intro a ham hpa
      obtain ⟨ha, h1, h2⟩ := (slotOverlapCond_iff a aircraft_id start_t end_t
        (hproper a ham) hw).mp hpa
      exact hnov ⟨a, ham, ha, h1, h2⟩
    have hfex : db.filter (fun slot => slot.aircraft_id == aircraft_id &&
        slot.start_time == start_t && slot.end_time == end_t) = [] := by
      rw [List.filter_eq_nil_iff]
      intro a ham hpa
      simp only [Bool.and_eq_true, beq_iff_eq] at hpa
      refine hnov ⟨a, ham, hpa.1.1, ?_, ?_⟩
      · rw [hpa.1.2]
        exact hw
      · rw [hpa.2]
        exact hw
    constructor
    · simp [create_or_update_slot, hfex, hfcond]
    · unfold SlotsInvariant
      rw [List.pairwise_append]
      refine ⟨hInv, List.pairwise_singleton _ _, ?_⟩
      intro a ham b hbm
      rw [List.mem_singleton] at hbm
      subst hbm
      intro hair hover
      exact hnov ⟨a, ham, hair, hover.1, hover.2⟩

/-- Witness for C10 over the one-slot database `[slotA]` (`ac1`, 100-200):
an exact-match request updates in place, a partially-overlapping request
(150-250) errors, and a disjoint request (300-400) inserts, preserving
disjointness. -/
theorem C10_witness :
    (create_or_update_slot [slotA] 999 7 "ac1" 100 200 SlotStatus.BUSY
        "PORTAL" none =
      Except.ok ({ slotA with status := SlotStatus.BUSY, source := "PORTAL", notes := none, updated_at := 999 },
        [slotA].map (fun slot => if slot.id == slotA.id then
          { slotA with status := SlotStatus.BUSY, source := "PORTAL", notes := none, updated_at := 999 } else slot))) ∧
    (∃ ovl, create_or_update_slot [slotA] 999 7 "ac1" 150 250
        SlotStatus.AVAILABLE "PORTAL" none =
      Except.error (UpsertError.overlapError ovl)) ∧
    (create_or_update_slot [slotA] 999 7 "ac1" 300 400 SlotStatus.AVAILABLE
        "PORTAL" none =
      Except.ok (⟨7, "ac1", 300, 400, SlotStatus.AVAILABLE, "PORTAL", none,
          999, 999⟩,
        [slotA] ++ [⟨7, "ac1", 300, 400, SlotStatus.AVAILABLE, "PORTAL", none,
          999, 999⟩]) ∧
     SlotsInvariant ([slotA] ++ [⟨7, "ac1", 300, 400, SlotStatus.AVAILABLE,
        "PORTAL", none, 999, 999⟩])) := by
  have hInv : SlotsInvariant [slotA] := List.pairwise_singleton _ _
  have hids : ([slotA].map (fun slot => slot.id)).Nodup := by simp
  have hproper : ∀ slot ∈ [slotA], slot.start_time < slot.end_time := by
    intro slot hm
    rw [List.mem_singleton] at hm
    subst hm
    decide
  refine ⟨?_, ?_, ?_⟩
  · exact ((C10_upsert_preserves_disjointness [slotA] 999 7 "ac1" 100 200
      SlotStatus.BUSY "PORTAL" none hInv hids hproper (by decide)).1 slotA
      (List.mem_singleton.mpr rfl) rfl rfl rfl).1
  · have hnoex : ¬ ∃ e ∈ [slotA], e.aircraft_id = "ac1" ∧
        e.start_time = 150 ∧ e.end_time = 250 := by
      rintro ⟨e, he, -, hst, -⟩
      rw [List.mem_singleton] at he
      subst he
      exact absurd hst (by decide)
    exact (C10_upsert_preserves_disjointness [slotA] 999 7 "ac1" 150 250
      SlotStatus.AVAILABLE "PORTAL" none hInv hids hproper (by decide)).2.1
      hnoex ⟨slotA, List.mem_singleton.mpr rfl, rfl, by decide, by decide⟩
  · have hnov : ¬ ∃ slot ∈ [slotA], slot.aircraft_id = "ac1" ∧
        slot.start_time < 400 ∧ 300 < slot.end_time := by
      rintro ⟨slot, hm, -, -, hlt⟩
      rw [List.mem_singleton] at hm
      subst hm
      exact absurd hlt (by decide)
    exact (C10_upsert_preserves_disjointness [slotA] 999 7 "ac1" 300 400
      SlotStatus.AVAILABLE "PORTAL" none hInv hids hproper (by decide)).2.2
      hnov

end SkyRide
